import Mathlib

/-!
Shallow embedding of the Prometheus discovery endpoints of erlenmeyer
(`proto/prom/find.go` and the revised variant of the same file): matcher
translation (`processMatchers`), the validation and orchestration logic of
the discovery endpoints (`FindClassnames`, `FindLabelsValues`,
`FindLabels`), and the time-range clamp (`applyTimeRangeLimits`).

External collaborators (the PromQL matcher parser `ParseMetricSelector`
and the Warp10 backend call `FindGTS`) are passed to each endpoint as
function parameters.  Every endpoint additionally returns the list of
backend invocations it performed (selector string and find parameters), so
that properties about how often and with which selector the backend is
queried can be stated and proved.
-/

/-- Matcher operator, mirroring the prometheus `labels.MatchType` together
with its `String()` rendering (`=`, `!=`, `=~`, `!~`). -/
inductive MatchType
  | matchEqual
  | matchNotEqual
  | matchRegexp
  | matchNotRegexp
deriving DecidableEq, Repr

/-- The `String()` method of `labels.MatchType`. -/
def MatchType.str : MatchType → String
  | .matchEqual => "="
  | .matchNotEqual => "!="
  | .matchRegexp => "=~"
  | .matchNotRegexp => "!~"

/-- One label matcher (`labels.Matcher`): label name, value, operator. -/
structure Matcher where
  name : String
  value : String
  mtype : MatchType
deriving DecidableEq, Repr

/-- Go map update `m[k] = v`: the binding for `k` is replaced.  Iteration
order of Go maps is unspecified, so any association-list representation
with these lookup semantics is a faithful model. -/
def mapInsert (l : List (String × String)) (k v : String) : List (String × String) :=
  (k, v) :: l.filter (fun p => p.1 != k)

/-- Go map lookup `m[k]` (the `value, exists := m[k]` form). -/
def mapLookup (l : List (String × String)) (k : String) : Option String :=
  (l.find? (fun p => p.1 == k)).map Prod.snd

theorem mapLookup_insert_self (l : List (String × String)) (k v : String) :
    mapLookup (mapInsert l k v) k = some v := by
  simp [mapLookup, mapInsert, List.find?_cons_of_pos]

theorem find?_filter_ne (l : List (String × String)) (k k' : String) (h : k' ≠ k) :
    (l.filter (fun p => p.1 != k)).find? (fun p => p.1 == k') =
      l.find? (fun p => p.1 == k') := by
  induction l with
  | nil => rfl
  | cons a t ih =>
    by_cases ha : a.1 = k
    · have hk' : (a.1 == k') = false := by
        rw [ha]; exact beq_false_of_ne (Ne.symm h)
      rw [List.filter_cons]
      simp only [ha, bne_self_eq_false]
      rw [List.find?_cons_of_neg _ (by simp [hk'])]
      exact ih
    · rw [List.filter_cons]
      have : (a.1 != k) = true := bne_iff_ne.mpr ha
      simp only [this, if_pos trivial]
      by_cases hk' : a.1 = k'
      · rw [List.find?_cons_of_pos _ (by simp [hk']), List.find?_cons_of_pos _ (by simp [hk'])]
      · rw [List.find?_cons_of_neg _ (by simp [hk']), List.find?_cons_of_neg _ (by simp [hk'])]
        exact ih

theorem mapLookup_insert_ne (l : List (String × String)) (k v k' : String) (h : k' ≠ k) :
    mapLookup (mapInsert l k v) k' = mapLookup l k' := by
  unfold mapLookup mapInsert
  rw [List.find?_cons_of_neg _ (by simp [Ne.symm h]), find?_filter_ne l k k' h]

/-- The constraint-string encoding applied by `processMatchers` to a
non-name matcher: the `switch matcher.Type.String()` in the source, with
the `=` case falling through to the untouched value. -/
def labelConstraint (m : Matcher) : String :=
  match m.mtype.str with
  | "=~" => "~" ++ m.value
  | "!=" => "~(?!" ++ m.value ++ ").*"
  | "!~" => "~(?!" ++ m.value ++ ").*"
  | _ => m.value

/-- Result of matcher translation: class-name pattern plus label
constraints (the pair returned by `processMatchers`). -/
structure TranslatedSelector where
  className : String
  labels : List (String × String)
deriving DecidableEq, Repr

/-- One iteration of the `processMatchers` loop. -/
def processStep (acc : TranslatedSelector) (m : Matcher) : TranslatedSelector :=
  if m.name = "__name__" then { acc with className := m.value }
  else { acc with labels := mapInsert acc.labels m.name (labelConstraint m) }

/-- `processMatchers` of `proto/prom/find.go`: extracts the class name
from `__name__` matchers and encodes every other matcher into the Warp10
constraint dialect. -/
def processMatchers (ms : List Matcher) : TranslatedSelector :=
  ms.foldl processStep ⟨"", []⟩

theorem processStep_labels_ne (acc : TranslatedSelector) (m : Matcher) (k : String)
    (h : m.name ≠ k) :
    mapLookup (processStep acc m).labels k = mapLookup acc.labels k := by
  unfold processStep
  by_cases hn : m.name = "__name__"
  · simp [hn]
  · simp only [hn, if_neg hn]
    exact mapLookup_insert_ne _ _ _ _ (Ne.symm h)

theorem foldl_labels_ne (l : List Matcher) (k : String) (h : ∀ m ∈ l, m.name ≠ k) :
    ∀ acc, mapLookup (l.foldl processStep acc).labels k = mapLookup acc.labels k := by
  induction l with
  | nil => intro acc; rfl
  | cons a t ih =>
    intro acc
    rw [List.foldl_cons, ih (fun m hm => h m (List.mem_cons_of_mem a hm))]
    exact processStep_labels_ne acc a k (h a (List.mem_cons_self a t))

/-- Claim C1: for every matcher list, each matcher whose label name is not
the reserved `__name__` label contributes exactly the encoded constraint
string to the label-constraint map — the literal value for `Equal`, the
`~`-prefixed value for `RegexMatch`, and the negative-lookahead regex
`~(?!value).*` for both `NotEqual` and `RegexNotMatch` (the entry of the
last matcher carrying a given label name is the one stored). -/
theorem processMatchers_encodes_constraints (l1 l2 : List Matcher) (m : Matcher)
    (hname : m.name ≠ "__name__") (hlast : ∀ m' ∈ l2, m'.name ≠ m.name) :
    mapLookup (processMatchers (l1 ++ m :: l2)).labels m.name =
      some (match m.mtype with
        | .matchEqual => m.value
        | .matchRegexp => "~" ++ m.value
        | .matchNotEqual => "~(?!" ++ m.value ++ ").*"
        | .matchNotRegexp => "~(?!" ++ m.value ++ ").*") := by
  unfold processMatchers
  rw [List.foldl_append, List.foldl_cons, foldl_labels_ne l2 m.name hlast]
  have hstep : ∀ acc : TranslatedSelector,
      processStep acc m = { acc with labels := mapInsert acc.labels m.name (labelConstraint m) } := by
    intro acc; unfold processStep; rw [if_neg hname]
  rw [hstep, mapLookup_insert_self]
  obtain ⟨n, v, t⟩ := m
  cases t <;> rfl

theorem processMatchers_encodes_constraints_witness :
    (("env" : String) ≠ "__name__") ∧
      mapLookup (processMatchers ([] ++ ⟨"env", "prod", .matchEqual⟩ :: [])).labels "env" =
        some "prod" :=
  ⟨by decide,
    processMatchers_encodes_constraints [] [] ⟨"env", "prod", .matchEqual⟩
      (by decide) (by simp)⟩

theorem foldl_className (ms : List Matcher) :
    ∀ acc, (ms.foldl processStep acc).className =
      (((ms.filter (fun m => m.name == "__name__")).getLast?).map Matcher.value).getD
        acc.className := by
  induction ms with
  | nil => intro acc; rfl
  | cons a t ih =>
    intro acc
    rw [List.foldl_cons, ih]
    by_cases ha : a.name = "__name__"
    · have hstep : (processStep acc a).className = a.value := by simp [processStep, ha]
      rw [hstep, List.filter_cons_of_pos (by simp [ha])]
      cases hft : t.filter (fun m => m.name == "__name__") with
      | nil => simp
      | cons b u =>
        rw [List.getLast?_cons_cons]
        cases hgl : (b :: u).getLast? with
        | none =>
          rw [List.getLast?_eq_none_iff] at hgl
          exact absurd hgl (by simp)
        | some x => simp [hgl]
    · have hstep : (processStep acc a).className = acc.className := by
        simp [processStep, ha]
      rw [hstep, List.filter_cons_of_neg (by simp [ha])]

theorem foldl_no_reserved (ms : List Matcher) :
    ∀ acc, mapLookup acc.labels "__name__" = none →
      mapLookup (ms.foldl processStep acc).labels "__name__" = none := by
  induction ms with
  | nil => intro acc h; exact h
  | cons a t ih =>
    intro acc h
    rw [List.foldl_cons]
    apply ih
    by_cases ha : a.name = "__name__"
    · simpa [processStep, ha] using h
    · show mapLookup (processStep acc a).labels "__name__" = none
      rw [processStep_labels_ne acc a "__name__" ha]
      exact h

/-- Claim C2: `processMatchers` returns as class-name pattern the value of
the last `__name__` matcher (the empty string when none is present, and
the empty selector for the empty list), and the reserved `__name__` label
never appears as a key of the returned label-constraint map. -/
theorem processMatchers_className_last_wins (ms : List Matcher) :
    (processMatchers ms).className =
        (((ms.filter (fun m => m.name == "__name__")).getLast?).map Matcher.value).getD "" ∧
      mapLookup (processMatchers ms).labels "__name__" = none ∧
      processMatchers [] = ⟨"", []⟩ := by
  refine ⟨?_, ?_, rfl⟩
  · exact foldl_className ms ⟨"", []⟩
  · exact foldl_no_reserved ms ⟨"", []⟩ rfl

/-- The global state read by `applyTimeRangeLimits`: the current clock
value (`time.Now()`) and the two configured lookbacks
(`warp10.find.activeafter.min` and `.max`), recorded as the parsed
duration when the configured string parses and as `none` when
`time.ParseDuration` fails.  Times and durations are in seconds. -/
structure FindConfig where
  nowClock : Int
  minCfg : Option Int
  maxCfg : Option Int
deriving DecidableEq, Repr

/-- `applyTimeRangeLimits` of the revised find endpoint: clamps a start
time into `[now - max, now - min]`, falling back to the defaults of 24
hours (86400 s) and 7 days (604800 s) when a configured lookback fails to
parse.  The global reads performed by the source function (clock and
configuration) are made explicit as the `FindConfig` argument. -/
def applyTimeRangeLimits (cfg : FindConfig) (startTime : Int) : Int :=
  let minDuration := cfg.minCfg.getD 86400
  let maxDuration := cfg.maxCfg.getD 604800
  let minAllowedTime := cfg.nowClock - maxDuration
  let maxAllowedTime := cfg.nowClock - minDuration
  if startTime < minAllowedTime then minAllowedTime
  else if maxAllowedTime < startTime then maxAllowedTime
  else startTime

/-- Claim C3: with minimum lookback `m` and maximum lookback `M`, the
clamp returns `now - M` for requests earlier than `now - M`, `now - m`
for requests later than `now - m`, and the request unchanged otherwise. -/
theorem applyTimeRangeLimits_clamps (T m M s : Int) (hmM : m ≤ M) :
    (s < T - M → applyTimeRangeLimits ⟨T, some m, some M⟩ s = T - M) ∧
      (T - m < s → applyTimeRangeLimits ⟨T, some m, some M⟩ s = T - m) ∧
      (T - M ≤ s → s ≤ T - m → applyTimeRangeLimits ⟨T, some m, some M⟩ s = s) := by
  refine ⟨fun h => ?_, fun h => ?_, fun h1 h2 => ?_⟩ <;>
    · simp only [applyTimeRangeLimits, Option.getD_some]
      split_ifs <;> omega

theorem applyTimeRangeLimits_clamps_witness :
    ((86400 : Int) ≤ 604800) ∧
      applyTimeRangeLimits ⟨0, some 86400, some 604800⟩ (-2592000) = -604800 ∧
      applyTimeRangeLimits ⟨0, some 86400, some 604800⟩ (-3600) = -86400 ∧
      applyTimeRangeLimits ⟨0, some 86400, some 604800⟩ (-259200) = -259200 :=
  ⟨by norm_num,
    (applyTimeRangeLimits_clamps 0 86400 604800 (-2592000) (by norm_num)).1 (by norm_num),
    (applyTimeRangeLimits_clamps 0 86400 604800 (-3600) (by norm_num)).2.1 (by norm_num),
    (applyTimeRangeLimits_clamps 0 86400 604800 (-259200) (by norm_num)).2.2
      (by norm_num) (by norm_num)⟩

/-- Claim C8, counterexample: `applyTimeRangeLimits` is not a function of
its one explicit input — with the requested timestamp and the configured
lookbacks held fixed, changing the value read from the global clock
changes the result, so the source function does read the current time from
the global clock (it takes only `startTime` as an explicit argument). -/
theorem applyTimeRangeLimits_reads_global_clock :
    applyTimeRangeLimits ⟨0, some 86400, some 604800⟩ (-1000000000) ≠
      applyTimeRangeLimits ⟨1000000000, some 86400, some 604800⟩ (-1000000000) := by
  decide

/-- Claim C8, amended: the clamp result is determined by exactly four
values — the requested timestamp, the clock reading, and the
parsed-or-defaulted minimum and maximum lookbacks: two invocations that
agree on those four values return the same result. -/
theorem applyTimeRangeLimits_deterministic (c1 c2 : FindConfig) (s : Int)
    (hn : c1.nowClock = c2.nowClock)
    (hmin : c1.minCfg.getD 86400 = c2.minCfg.getD 86400)
    (hmax : c1.maxCfg.getD 604800 = c2.maxCfg.getD 604800) :
    applyTimeRangeLimits c1 s = applyTimeRangeLimits c2 s := by
  simp only [applyTimeRangeLimits, hn, hmin, hmax]

theorem applyTimeRangeLimits_deterministic_witness :
    (FindConfig.nowClock ⟨5, none, some 604800⟩ = FindConfig.nowClock ⟨5, some 86400, none⟩) ∧
      applyTimeRangeLimits ⟨5, none, some 604800⟩ 3 = applyTimeRangeLimits ⟨5, some 86400, none⟩ 3 :=
  ⟨rfl, applyTimeRangeLimits_deterministic ⟨5, none, some 604800⟩ ⟨5, some 86400, none⟩ 3
    rfl rfl rfl⟩

/-- One matched series as returned by the backend
(`core.GeoTimeSeries`): class name plus label and attribute mappings. -/
structure Record where
  Class : String
  Labels : List (String × String)
  Attrs : List (String × String)
deriving DecidableEq, Repr

/-- `core.FindParameters`; only the result-count cap `GCount` is used by
the embedded endpoints (Go zero value: 0, meaning no cap). -/
structure FindParameters where
  GCount : Nat
deriving DecidableEq, Repr

/-- The external matcher parser `queryPromql.ParseMetricSelector`,
supplied as a function from the raw expression to either a matcher list or
a parse-error message. -/
abbrev MatcherParse := String → Except String (List Matcher)

/-- The backend query call `warpServer.FindGTS`, supplied as a function
from the selector string and the find parameters to either the matched
records or a backend error.  The token and endpoint name, constant per
request, are omitted. -/
abbrev Backend := String → FindParameters → Except Unit (List Record)

/-- Modelled from the spec: the repository's `buildWarp10Selector`
(SelectorBuilder) is not among the provided sources; per the spec it
serializes a translated selector as the class-name component (a wildcard
when empty) followed by a brace-delimited, comma-separated list of
`label=constraint` pairs. -/
def buildWarp10Selector (className : String) (lbls : List (String × String)) : String :=
  (if className = "" then "~.*" else className) ++ "\x7b" ++
    String.intercalate "," (lbls.map (fun p => p.1 ++ "=" ++ p.2)) ++ "\x7d"

/-- Modelled from the spec: the repository's `unique` helper is not among
the provided sources; per the spec, results are deduplicated by value
(first occurrence kept). -/
def uniqueAux (acc : List String) : List String → List String
  | [] => acc
  | x :: rest => uniqueAux (if x ∈ acc then acc else acc ++ [x]) rest

/-- Modelled from the spec: deduplication of a result list by value. -/
def unique (l : List String) : List String := uniqueAux [] l

/-- `DEFAULT_METRIC_SELECTOR` of the revised find endpoint. -/
def DEFAULT_METRIC_SELECTOR : String := "(http|prometheus).*"

/-- `DEFAULT_METRIC_SELECTOR_GCOUNT` of the revised find endpoint. -/
def DEFAULT_METRIC_SELECTOR_GCOUNT : Nat := 100

/-- The default matcher expression substituted by `FindClassnames` when no
`match[]` expression is supplied. -/
def defaultMatcherExpr : String :=
  "\x7b__name__=~\x27" ++ DEFAULT_METRIC_SELECTOR ++ "\x27\x7d"

/-- Model of Go `strings.TrimSpace`: leading and trailing whitespace
removed. -/
def trimSpace (s : String) : String :=
  ⟨((s.toList.dropWhile Char.isWhitespace).reverse.dropWhile Char.isWhitespace).reverse⟩

/-- The inner validation loop of `FindClassnames` over one parsed matcher
list: tracks whether a `__name__` matcher was seen, skips the length check
for the default selector value, and rejects name values whose trimmed
length is below 7. -/
def validateLoop : List Matcher → Bool → Except (Nat × String) Bool
  | [], has => Except.ok has
  | m :: rest, has =>
    if m.name = "__name__" then
      if m.value = DEFAULT_METRIC_SELECTOR then validateLoop rest true
      else if (trimSpace m.value).length < 7 then
        Except.error (400, "search must contain at least 3 characters")
      else validateLoop rest true
    else validateLoop rest has

/-- Validation of one parsed matcher expression in `FindClassnames`: the
short-name rejection, then the mandatory-`__name__` rejection. -/
def validateExpr (ms : List Matcher) : Option (Nat × String) :=
  match validateLoop ms false with
  | Except.error err => some err
  | Except.ok true => none
  | Except.ok false => some (400, "query must include a matcher for __name__")

/-- The validation pass of `FindClassnames` over all supplied matcher
expressions: parse errors and per-expression validation failures abort
with a bad request before any backend call. -/
def validateMatchersList (parse : MatcherParse) : List String → Option (Nat × String)
  | [] => none
  | e :: rest =>
    match parse e with
    | Except.error pe => some (400, "invalid matcher format: " ++ pe)
    | Except.ok ms =>
      match validateExpr ms with
      | some err => some err
      | none => validateMatchersList parse rest

/-- The selector `FindClassnames` builds for one matcher expression before
forcing the regex form: translate the parsed matchers (a failed parse is
discarded with `_` in this loop, yielding no matchers), optionally
constrain the URI label to `~.*`, and serialize. -/
def exprSelector (parse : MatcherParse) (uriLabel : String) (e : String) : String :=
  let ms := match parse e with
    | Except.ok ms => ms
    | Except.error _ => []
  let ts := processMatchers ms
  let lbls := if uriLabel ≠ "" ∧ uriLabel ≠ "__name__" then
      mapInsert ts.labels uriLabel "~.*"
    else ts.labels
  buildWarp10Selector ts.className lbls

/-- The query loop of `FindClassnames`: for each expression, query the
backend with the `~`-forced selector, aborting on backend error and
accumulating the matched records otherwise. -/
def classnamesQueryLoop (parse : MatcherParse) (backend : Backend)
    (params : FindParameters) (uriLabel : String) :
    List String → List Record → List (String × FindParameters) →
      Except (Nat × String) (List Record) × List (String × FindParameters)
  | [], acc, log => (Except.ok acc, log)
  | e :: rest, acc, log =>
    let selector := "~" ++ exprSelector parse uriLabel e
    match backend selector params with
    | Except.error _ =>
      (Except.error (500, "internal server error while searching for series"),
        log ++ [(selector, params)])
    | Except.ok gtss =>
      classnamesQueryLoop parse backend params uriLabel rest (acc ++ gtss)
        (log ++ [(selector, params)])

/-- The core `FindClassnames` routine of the revised find endpoint
(primitive-parameter form): substitutes the capped default expression when
no matcher is supplied, validates every expression, then runs the query
loop.  The second component is the list of backend invocations
performed. -/
def FindClassnames (parse : MatcherParse) (backend : Backend)
    (matchers0 : List String) (uriLabel : String) :
    Except (Nat × String) (List Record) × List (String × FindParameters) :=
  let pair := if matchers0 = [] then
      ([defaultMatcherExpr], (⟨DEFAULT_METRIC_SELECTOR_GCOUNT⟩ : FindParameters))
    else (matchers0, ⟨0⟩)
  match validateMatchersList parse pair.1 with
  | some err => (Except.error err, [])
  | none => classnamesQueryLoop parse backend pair.2 uriLabel pair.1 [] []

/-- The result-collection loop of `FindLabelsValues`: the class name when
the requested label is `__name__`, otherwise the record's value for that
label when present in its labels mapping (records lacking it are
skipped). -/
def collectLabelValues (labelValue : String) : List Record → List String
  | [] => []
  | g :: rest =>
    if labelValue = "__name__" then g.Class :: collectLabelValues labelValue rest
    else match mapLookup g.Labels labelValue with
      | some v => v :: collectLabelValues labelValue rest
      | none => collectLabelValues labelValue rest

/-- `FindLabelsValues` of `proto/prom/find.go`: requires a label
parameter, short-circuits to an empty success on zero matcher expressions,
and otherwise parses and queries only the first expression, deduplicating
the collected values. -/
def FindLabelsValues (parse : MatcherParse) (backend : Backend)
    (labelValue : String) (matchers : List String) :
    Except (Nat × String) (List String) × List (String × FindParameters) :=
  if labelValue = "" then
    (Except.error (400, "unprocessable Entity: label"), [])
  else
    match matchers with
    | [] => (Except.ok [], [])
    | m0 :: _ =>
      match parse m0 with
      | Except.error pe => (Except.error (400, pe), [])
      | Except.ok ms =>
        let ts := processMatchers ms
        let findQuery := buildWarp10Selector ts.className ts.labels
        match backend findQuery ⟨0⟩ with
        | Except.error _ =>
          (Except.error (500, "internal server error"), [(findQuery, ⟨0⟩)])
        | Except.ok gtss =>
          (Except.ok (unique (collectLabelValues labelValue gtss)), [(findQuery, ⟨0⟩)])

/-- Set insertion used to model the `labelSet` map of `FindLabels`. -/
def setInsert (s : List String) (k : String) : List String :=
  if k ∈ s then s else s ++ [k]

/-- The labels-key loop of `FindLabels`: every label key except the
internal `.app` housekeeping label. -/
def addLabelKeys : List String → List (String × String) → List String
  | s, [] => s
  | s, (key, _) :: rest => addLabelKeys (if key = ".app" then s else setInsert s key) rest

/-- The attributes-key loop of `FindLabels`: every attribute key. -/
def addAttrKeys : List String → List (String × String) → List String
  | s, [] => s
  | s, (key, _) :: rest => addAttrKeys (setInsert s key) rest

/-- The record loop of `FindLabels`: label keys (minus `.app`) and
attribute keys of every returned record. -/
def collectLabelNames : List String → List Record → List String
  | s, [] => s
  | s, g :: rest => collectLabelNames (addAttrKeys (addLabelKeys s g.Labels) g.Attrs) rest

/-- The per-expression loop of `FindLabels`: parse, translate, query, then
add `__name__` and all observed label and attribute keys to the set. -/
def findLabelsLoop (parse : MatcherParse) (backend : Backend) :
    List String → List String → List (String × FindParameters) →
      Except (Nat × String) (List String) × List (String × FindParameters)
  | [], labelSet, log => (Except.ok labelSet, log)
  | e :: rest, labelSet, log =>
    match parse e with
    | Except.error pe => (Except.error (400, "invalid matcher format: " ++ pe), log)
    | Except.ok ms =>
      let ts := processMatchers ms
      let q := buildWarp10Selector ts.className ts.labels
      match backend q ⟨0⟩ with
      | Except.error _ =>
        (Except.error (500, "internal server error while searching for series"),
          log ++ [(q, ⟨0⟩)])
      | Except.ok gtss =>
        findLabelsLoop parse backend rest
          (collectLabelNames (setInsert labelSet "__name__") gtss) (log ++ [(q, ⟨0⟩)])

/-- `FindLabels` of `proto/prom/find.go`: an immediate empty success when
no matcher expression is supplied, otherwise the union of label names over
all expressions. -/
def FindLabels (parse : MatcherParse) (backend : Backend) (matchers : List String) :
    Except (Nat × String) (List String) × List (String × FindParameters) :=
  match matchers with
  | [] => (Except.ok [], [])
  | _ => findLabelsLoop parse backend matchers [] []

theorem validateLoop_short (ms : List Matcher)
    (h : ∃ m ∈ ms, m.name = "__name__" ∧ m.value ≠ DEFAULT_METRIC_SELECTOR ∧
      (trimSpace m.value).length < 7) :
    ∀ b, validateLoop ms b =
      Except.error (400, "search must contain at least 3 characters") := by
  induction ms with
  | nil =>
    rcases h with ⟨m, hm, _⟩
    exact absurd hm (List.not_mem_nil m)
  | cons a t ih =>
    intro b
    rcases h with ⟨m, hm, h1, h2, h3⟩
    rcases List.mem_cons.mp hm with heq | hmt
    · subst heq
      simp [validateLoop, h1, h2, h3]
    · have ih' := ih ⟨m, hmt, h1, h2, h3⟩
      unfold validateLoop
      by_cases ha : a.name = "__name__"
      · rw [if_pos ha]
        by_cases had : a.value = DEFAULT_METRIC_SELECTOR
        · rw [if_pos had]; exact ih' true
        · rw [if_neg had]
          by_cases hlen : (trimSpace a.value).length < 7
          · rw [if_pos hlen]
          · rw [if_neg hlen]; exact ih' true
      · rw [if_neg ha]; exact ih' b

theorem validateExpr_short (ms : List Matcher)
    (h : ∃ m ∈ ms, m.name = "__name__" ∧ m.value ≠ DEFAULT_METRIC_SELECTOR ∧
      (trimSpace m.value).length < 7) :
    validateExpr ms = some (400, "search must contain at least 3 characters") := by
  unfold validateExpr
  rw [validateLoop_short ms h false]

theorem validateLoop_error (ms : List Matcher) :
    ∀ b e, validateLoop ms b = Except.error e →
      e = (400, "search must contain at least 3 characters") := by
  induction ms with
  | nil =>
    intro b e h
    exact absurd h (by simp [validateLoop])
  | cons a t ih =>
    intro b e h
    unfold validateLoop at h
    by_cases ha : a.name = "__name__"
    · rw [if_pos ha] at h
      by_cases had : a.value = DEFAULT_METRIC_SELECTOR
      · rw [if_pos had] at h; exact ih true e h
      · rw [if_neg had] at h
        by_cases hlen : (trimSpace a.value).length < 7
        · rw [if_pos hlen] at h
          simp only [Except.error.injEq] at h
          exact h.symm
        · rw [if_neg hlen] at h; exact ih true e h
    · rw [if_neg ha] at h; exact ih b e h

theorem validateExpr_some_400 (ms : List Matcher) (err : Nat × String)
    (h : validateExpr ms = some err) : err.1 = 400 := by
  unfold validateExpr at h
  cases hv : validateLoop ms false with
  | error e =>
    rw [hv] at h
    simp only [Option.some.injEq] at h
    rw [← h, validateLoop_error ms false e hv]
  | ok b =>
    rw [hv] at h
    cases b
    · simp only [Option.some.injEq] at h
      rw [← h]
    · exact absurd h (by simp)

theorem validateList_bad (parse : MatcherParse) (es : List String)
    (hok : ∀ x ∈ es, ∃ msx, parse x = Except.ok msx)
    (hbad : ∃ e ∈ es, ∃ ms, parse e = Except.ok ms ∧ validateExpr ms ≠ none) :
    ∃ msg, validateMatchersList parse es = some (400, msg) := by
  induction es with
  | nil =>
    rcases hbad with ⟨e, he, _⟩
    exact absurd he (List.not_mem_nil e)
  | cons x t ih =>
    obtain ⟨msx, hmsx⟩ := hok x (List.mem_cons_self x t)
    have hstep : validateMatchersList parse (x :: t) =
        (match validateExpr msx with
          | some err => some err
          | none => validateMatchersList parse t) := by
      rw [validateMatchersList, hmsx]
    rw [hstep]
    cases hv : validateExpr msx with
    | some err =>
      obtain ⟨c, msg⟩ := err
      have h4 : c = 400 := validateExpr_some_400 msx (c, msg) hv
      subst h4
      exact ⟨msg, rfl⟩
    | none =>
      apply ih
      · intro y hy
        exact hok y (List.mem_cons_of_mem x hy)
      · rcases hbad with ⟨e, he, ms, hpe, hne⟩
        rcases List.mem_cons.mp he with heq | het
        · subst heq
          rw [hmsx] at hpe
          simp only [Except.ok.injEq] at hpe
          subst hpe
          exact absurd hv hne
        · exact ⟨e, het, ms, hpe, hne⟩

theorem validateLoop_ok (ms : List Matcher)
    (h : ∀ m ∈ ms, m.name = "__name__" →
      m.value = DEFAULT_METRIC_SELECTOR ∨ 7 ≤ (trimSpace m.value).length) :
    ∀ b, validateLoop ms b =
      Except.ok (b || ms.any (fun m => m.name == "__name__")) := by
  induction ms with
  | nil => intro b; simp [validateLoop]
  | cons a t ih =>
    intro b
    have ht := ih (fun m hm hname => h m (List.mem_cons_of_mem a hm) hname)
    unfold validateLoop
    by_cases ha : a.name = "__name__"
    · rw [if_pos ha]
      rcases h a (List.mem_cons_self a t) ha with had | hlen
      · rw [if_pos had, ht true]
        simp [ha]
      · by_cases had : a.value = DEFAULT_METRIC_SELECTOR
        · rw [if_pos had, ht true]
          simp [ha]
        · rw [if_neg had, if_neg (by omega : ¬ (trimSpace a.value).length < 7), ht true]
          simp [ha]
    · rw [if_neg ha, ht b]
      have hbeq : (a.name == "__name__") = false := beq_false_of_ne ha
      simp [hbeq]

/-- Claim C4: metric-name discovery rejects, with a bad request and
without any backend invocation, every request in which some expression
carries a `__name__` matcher whose trimmed value is shorter than 7
characters and differs from the default selector pattern; and an
expression all of whose `__name__` matcher values are at least 7 trimmed
characters (or the default pattern) passes this validation. -/
theorem findClassnames_rejects_short_names :
    (∀ (parse : MatcherParse) (backend : Backend) (matchers0 : List String)
        (uriLabel : String),
      (∀ x ∈ matchers0, ∃ msx, parse x = Except.ok msx) →
      (∃ e ∈ matchers0, ∃ ms m, parse e = Except.ok ms ∧ m ∈ ms ∧
        m.name = "__name__" ∧ m.value ≠ DEFAULT_METRIC_SELECTOR ∧
        (trimSpace m.value).length < 7) →
      ∃ msg, FindClassnames parse backend matchers0 uriLabel =
        (Except.error (400, msg), [])) ∧
    (∀ ms : List Matcher, (∃ m ∈ ms, m.name = "__name__") →
      (∀ m ∈ ms, m.name = "__name__" →
        m.value = DEFAULT_METRIC_SELECTOR ∨ 7 ≤ (trimSpace m.value).length) →
      validateExpr ms = none) := by
  constructor
  · intro parse backend matchers0 uriLabel hok hbad
    have hne : matchers0 ≠ [] := by
      rcases hbad with ⟨e, he, _⟩
      exact List.ne_nil_of_mem he
    have hbad' : ∃ e ∈ matchers0, ∃ ms, parse e = Except.ok ms ∧ validateExpr ms ≠ none := by
      rcases hbad with ⟨e, he, ms, m, hpe, hm, h1, h2, h3⟩
      refine ⟨e, he, ms, hpe, ?_⟩
      rw [validateExpr_short ms ⟨m, hm, h1, h2, h3⟩]
      simp
    obtain ⟨msg, hv⟩ := validateList_bad parse matchers0 hok hbad'
    refine ⟨msg, ?_⟩
    simp only [FindClassnames, if_neg hne]
    rw [hv]
  · intro ms hex hall
    unfold validateExpr
    rw [validateLoop_ok ms hall false]
    have hany : ms.any (fun m => m.name == "__name__") = true := by
      rcases hex with ⟨m, hm, hname⟩
      exact List.any_eq_true.mpr ⟨m, hm, by simp [hname]⟩
    rw [hany]
    rfl

theorem findClassnames_rejects_short_names_witness :
    (∃ msg, FindClassnames (fun _ => Except.ok [⟨"__name__", "abc", .matchEqual⟩])
        (fun _ _ => Except.ok []) ["m"] "" = (Except.error (400, msg), [])) ∧
      validateExpr [⟨"__name__", "abcdefg", .matchEqual⟩] = none :=
  ⟨findClassnames_rejects_short_names.1 _ _ ["m"] ""
      (fun _ _ => ⟨[⟨"__name__", "abc", .matchEqual⟩], rfl⟩)
      ⟨"m", by simp, [⟨"__name__", "abc", .matchEqual⟩],
        ⟨"__name__", "abc", .matchEqual⟩, rfl, by simp, rfl, by decide, by decide⟩,
    findClassnames_rejects_short_names.2 [⟨"__name__", "abcdefg", .matchEqual⟩]
      ⟨⟨"__name__", "abcdefg", .matchEqual⟩, by simp, rfl⟩
      (fun m hm _ => by
        simp only [List.mem_singleton] at hm
        subst hm
        exact Or.inr (by decide))⟩

theorem classnamesQueryLoop_ok (parse : MatcherParse) (backend : Backend)
    (params : FindParameters) (uriLabel : String)
    (hb : ∀ s p, ∃ r, backend s p = Except.ok r) :
    ∀ es acc log, ∃ out,
      classnamesQueryLoop parse backend params uriLabel es acc log =
        (Except.ok out,
          log ++ es.map (fun e => ("~" ++ exprSelector parse uriLabel e, params))) := by
  intro es
  induction es with
  | nil =>
    intro acc log
    exact ⟨acc, by simp [classnamesQueryLoop]⟩
  | cons e rest ih =>
    intro acc log
    obtain ⟨r, hr⟩ := hb ("~" ++ exprSelector parse uriLabel e) params
    obtain ⟨out, hout⟩ := ih (acc ++ r) (log ++ [("~" ++ exprSelector parse uriLabel e, params)])
    refine ⟨out, ?_⟩
    rw [classnamesQueryLoop, hr]
    exact hout.trans (by simp)

/-- Claim C5: invoked with no matcher expression, metric-name discovery
substitutes exactly one default expression built from the default
metric-name pattern, caps that fallback backend query with the default
result count, and completes successfully rather than erroring or running
an uncapped query. -/
theorem findClassnames_default_fallback (parse : MatcherParse) (backend : Backend)
    (uriLabel : String)
    (hd : parse defaultMatcherExpr =
      Except.ok [⟨"__name__", DEFAULT_METRIC_SELECTOR, .matchRegexp⟩])
    (hb : ∀ s p, ∃ r, backend s p = Except.ok r) :
    ∃ out, FindClassnames parse backend [] uriLabel =
      (Except.ok out,
        [("~" ++ exprSelector parse uriLabel defaultMatcherExpr,
          (⟨DEFAULT_METRIC_SELECTOR_GCOUNT⟩ : FindParameters))]) := by
  have hval : validateMatchersList parse [defaultMatcherExpr] = none := by
    rw [validateMatchersList, hd]
    rfl
  obtain ⟨out, hout⟩ := classnamesQueryLoop_ok parse backend
    ⟨DEFAULT_METRIC_SELECTOR_GCOUNT⟩ uriLabel hb [defaultMatcherExpr] [] []
  refine ⟨out, ?_⟩
  show (match validateMatchersList parse [defaultMatcherExpr] with
    | some err => (Except.error err, ([] : List (String × FindParameters)))
    | none => classnamesQueryLoop parse backend ⟨DEFAULT_METRIC_SELECTOR_GCOUNT⟩
        uriLabel [defaultMatcherExpr] [] []) = _
  rw [hval]
  exact hout.trans (by simp)

theorem findClassnames_default_fallback_witness :
    ((fun _ => Except.ok [⟨"__name__", DEFAULT_METRIC_SELECTOR, .matchRegexp⟩] :
        MatcherParse) defaultMatcherExpr =
      Except.ok [⟨"__name__", DEFAULT_METRIC_SELECTOR, .matchRegexp⟩]) ∧
      ∃ out, FindClassnames
          (fun _ => Except.ok [⟨"__name__", DEFAULT_METRIC_SELECTOR, .matchRegexp⟩])
          (fun _ _ => Except.ok []) [] "" =
        (Except.ok out,
          [("~" ++ exprSelector
              (fun _ => Except.ok [⟨"__name__", DEFAULT_METRIC_SELECTOR, .matchRegexp⟩])
              "" defaultMatcherExpr,
            (⟨DEFAULT_METRIC_SELECTOR_GCOUNT⟩ : FindParameters))]) :=
  ⟨rfl,
    findClassnames_default_fallback _ _ "" rfl (fun _ _ => ⟨[], rfl⟩)⟩

/-- Claim C9: every selector that metric-name discovery sends to the
backend is the forced-regex form of the built selector — the serialized
selector prefixed with `~` — for its matcher expression, in particular
even when the expression specified the metric name with an exact-match
(`Equal`) matcher. -/
theorem findClassnames_forced_regex (parse : MatcherParse) (backend : Backend)
    (e : String) (rest : List String) (uriLabel : String)
    (hval : validateMatchersList parse (e :: rest) = none)
    (hb : ∀ s p, ∃ r, backend s p = Except.ok r) :
    (FindClassnames parse backend (e :: rest) uriLabel).2 =
      (e :: rest).map (fun x =>
        ("~" ++ exprSelector parse uriLabel x, (⟨0⟩ : FindParameters))) := by
  obtain ⟨out, hout⟩ := classnamesQueryLoop_ok parse backend ⟨0⟩ uriLabel hb
    (e :: rest) [] []
  simp only [FindClassnames, if_neg (List.cons_ne_nil e rest)]
  rw [hval, hout]
  simp

theorem findClassnames_forced_regex_witness :
    (validateMatchersList
        (fun _ => Except.ok [⟨"__name__", "abcdefg", .matchEqual⟩]) ["m"] = none) ∧
      (FindClassnames (fun _ => Except.ok [⟨"__name__", "abcdefg", .matchEqual⟩])
          (fun _ _ => Except.ok []) ["m"] "").2 =
        ["m"].map (fun x =>
          ("~" ++ exprSelector (fun _ => Except.ok [⟨"__name__", "abcdefg", .matchEqual⟩])
            "" x, (⟨0⟩ : FindParameters))) :=
  ⟨by decide,
    findClassnames_forced_regex _ _ "m" [] "" (by decide) (fun _ _ => ⟨[], rfl⟩)⟩

/-- Claim C6: label-value discovery with one or more matcher expressions
parses, translates and queries only the first supplied expression — the
whole outcome coincides with the outcome for the first expression alone,
and (once the first expression parses) the backend is invoked exactly
once. -/
theorem findLabelsValues_first_matcher_only (parse : MatcherParse) (backend : Backend)
    (lbl e : String) (rest : List String) :
    FindLabelsValues parse backend lbl (e :: rest) =
        FindLabelsValues parse backend lbl [e] ∧
      (lbl ≠ "" → ∀ ms, parse e = Except.ok ms →
        (FindLabelsValues parse backend lbl (e :: rest)).2.length = 1) := by
  constructor
  · rfl
  · intro hl ms hp
    simp only [FindLabelsValues, if_neg hl]
    rw [hp]
    cases hb2 : backend (buildWarp10Selector (processMatchers ms).className
      (processMatchers ms).labels) ⟨0⟩ <;> simp [hb2]

theorem findLabelsValues_first_matcher_only_witness :
    (("env" : String) ≠ "") ∧
      FindLabelsValues (fun _ => Except.ok []) (fun _ _ => Except.ok []) "env" ["a", "b"] =
        FindLabelsValues (fun _ => Except.ok []) (fun _ _ => Except.ok []) "env" ["a"] ∧
      (FindLabelsValues (fun _ => Except.ok [])
        (fun _ _ => Except.ok []) "env" ["a", "b"]).2.length = 1 :=
  ⟨by decide,
    (findLabelsValues_first_matcher_only _ _ "env" "a" ["b"]).1,
    (findLabelsValues_first_matcher_only (fun _ => Except.ok [])
      (fun _ _ => Except.ok []) "env" "a" ["b"]).2 (by decide) [] rfl⟩

/-- Claim C7: label-name discovery with zero matcher expressions returns
an immediate empty success result and performs zero backend
invocations. -/
theorem findLabels_empty_matchers (parse : MatcherParse) (backend : Backend) :
    FindLabels parse backend [] = (Except.ok [], []) := rfl

theorem collectLabelValues_eq_filterMap (lbl : String) (h : lbl ≠ "__name__")
    (gts : List Record) :
    collectLabelValues lbl gts = gts.filterMap (fun g => mapLookup g.Labels lbl) := by
  induction gts with
  | nil => rfl
  | cons g t ih =>
    rw [collectLabelValues, if_neg h, List.filterMap_cons]
    cases hl : mapLookup g.Labels lbl <;> simp [hl, ih]

theorem mem_setInsert_self (s : List String) (k : String) : k ∈ setInsert s k := by
  by_cases h : k ∈ s <;> simp [setInsert, h]

theorem mem_setInsert_of_mem (s : List String) (k j : String) (h : j ∈ s) :
    j ∈ setInsert s k := by
  by_cases hk : k ∈ s <;> simp [setInsert, hk, h]

theorem mem_addLabelKeys_of_mem (l : List (String × String)) :
    ∀ s j, j ∈ s → j ∈ addLabelKeys s l := by
  induction l with
  | nil => intro s j h; exact h
  | cons p t ih =>
    intro s j h
    obtain ⟨key, v⟩ := p
    rw [addLabelKeys]
    apply ih
    split_ifs
    · exact h
    · exact mem_setInsert_of_mem s key j h

theorem mem_addAttrKeys_of_mem (l : List (String × String)) :
    ∀ s j, j ∈ s → j ∈ addAttrKeys s l := by
  induction l with
  | nil => intro s j h; exact h
  | cons p t ih =>
    intro s j h
    obtain ⟨key, v⟩ := p
    exact ih _ j (mem_setInsert_of_mem s key j h)

theorem mem_addAttrKeys_self (l : List (String × String)) :
    ∀ s k v, (k, v) ∈ l → k ∈ addAttrKeys s l := by
  induction l with
  | nil =>
    intro s k v h
    exact absurd h (List.not_mem_nil _)
  | cons p t ih =>
    intro s k v h
    obtain ⟨key, w⟩ := p
    rcases List.mem_cons.mp h with heq | hmem
    · obtain ⟨rfl, rfl⟩ := Prod.mk.inj heq
      exact mem_addAttrKeys_of_mem t _ k (mem_setInsert_self s k)
    · exact ih _ k v hmem

theorem mem_collectLabelNames_of_mem (gts : List Record) :
    ∀ s j, j ∈ s → j ∈ collectLabelNames s gts := by
  induction gts with
  | nil => intro s j h; exact h
  | cons g t ih =>
    intro s j h
    exact ih _ j (mem_addAttrKeys_of_mem _ _ _ (mem_addLabelKeys_of_mem _ _ _ h))

theorem mem_collectLabelNames_attr (gts : List Record) :
    ∀ s g k v, g ∈ gts → (k, v) ∈ g.Attrs → k ∈ collectLabelNames s gts := by
  induction gts with
  | nil =>
    intro s g k v hg
    exact absurd hg (List.not_mem_nil _)
  | cons g0 t ih =>
    intro s g k v hg hk
    rcases List.mem_cons.mp hg with heq | hmem
    · subst heq
      exact mem_collectLabelNames_of_mem t _ k (mem_addAttrKeys_self _ _ _ _ hk)
    · exact ih _ g k v hmem hk

/-- Claim C10: label-value discovery collects values only from each
record's labels mapping (the class name when the requested label is
`__name__`): its result is exactly the deduplicated labels-mapping
projections, so a record carrying the requested label only in its
attributes mapping contributes nothing and a record lacking the label is
skipped — whereas label-name discovery does include every attribute key
among the returned label names. -/
theorem findLabelsValues_labels_only (parse : MatcherParse) (backend : Backend)
    (lbl e : String) (rest : List String) (ms : List Matcher) (gts : List Record)
    (hl0 : lbl ≠ "") (hl : lbl ≠ "__name__")
    (hp : parse e = Except.ok ms)
    (hbk : backend (buildWarp10Selector (processMatchers ms).className
      (processMatchers ms).labels) ⟨0⟩ = Except.ok gts) :
    (FindLabelsValues parse backend lbl (e :: rest)).1 =
        Except.ok (unique (gts.filterMap (fun g => mapLookup g.Labels lbl))) ∧
      ∀ g ∈ gts, ∀ k v, (k, v) ∈ g.Attrs →
        ∃ names, (FindLabels parse backend [e]).1 = Except.ok names ∧ k ∈ names := by
  constructor
  · simp only [FindLabelsValues, if_neg hl0, hp, hbk]
    rw [collectLabelValues_eq_filterMap lbl hl gts]
  · intro g hg k v hk
    refine ⟨collectLabelNames (setInsert [] "__name__") gts, ?_, ?_⟩
    · simp only [FindLabels, findLabelsLoop, hp, hbk]
    · exact mem_collectLabelNames_attr gts _ g k v hg hk

theorem findLabelsValues_labels_only_witness :
    (("lv" : String) ≠ "") ∧ (("lv" : String) ≠ "__name__") ∧
      ((FindLabelsValues (fun _ => Except.ok [])
            (fun _ _ => Except.ok [⟨"cls", [("env", "prod")], [("lv", "w")]⟩])
            "lv" ["x"]).1 =
          Except.ok (unique
            (([⟨"cls", [("env", "prod")], [("lv", "w")]⟩] : List Record).filterMap
              (fun g => mapLookup g.Labels "lv"))) ∧
        ∀ g ∈ ([⟨"cls", [("env", "prod")], [("lv", "w")]⟩] : List Record),
          ∀ k v, (k, v) ∈ g.Attrs →
            ∃ names, (FindLabels (fun _ => Except.ok [])
                (fun _ _ => Except.ok [⟨"cls", [("env", "prod")], [("lv", "w")]⟩])
                ["x"]).1 = Except.ok names ∧ k ∈ names) :=
  ⟨by decide, by decide,
    findLabelsValues_labels_only _ _ "lv" "x" [] [] _
      (by decide) (by decide) rfl rfl⟩
